import Mathlib

/-!
# Verification of the fifi-calculator input-dispatch and modifier-state subsystem

A shallow embedding, in Lean 4, of the input-dispatch core of the
fifi-calculator frontend: the Emacs-style prefix-argument state machine
(`src/prefix_argument.ts`), the key model (`src/keyboard.ts`), the sequential
key-event dispatcher (`src/keyboard/dispatcher.ts`), the `ButtonModifiers`
monoid (`src/button_grid/modifier_delegate.ts`), the subcommand button manager
(`src/button_grid/subcommand.ts`), and the doubly-linked-list-backed LRU cache
(`src/lru_cache.ts`).

TypeScript values are modelled as follows: JS numbers that hold integers
become `Int` (or `Nat` where the source only ever stores naturals); `null` /
`undefined` become `Option`; JS strings become `List Char`; a JS `Map` becomes
an association list with unique keys maintained by construction; the mutable
doubly-linked node list of the LRU cache becomes an explicit list of node ids
in link order (head-adjacent first) together with a store of all node records
ever allocated (node objects are heap values in JS and survive unlinking, so
the store is append-only).  Thrown exceptions become `Option`/`Except`.
-/

namespace Fifi

/-! ## Key responses (`src/keyboard.ts`, `KeyResponse`)

The dispatcher-era `KeyResponse` enum has exactly the two members `PASS` and
`BLOCK`. -/

inductive KeyResponse where
  | PASS
  | BLOCK
  deriving DecidableEq, Repr

/-! ## Prefix-argument state machine (`src/prefix_argument.ts`)

The source represents each state as an object literal carrying a
`prefixArgument` field and an `onTransition` closure; the four distinct
shapes (`DEFAULT_STATE`, `multiplierState(k)`, `NEGATIVE_INPUT_STATE`,
`numericalState(n)`) become the four constructors of an inductive type. -/

inductive SimpleInput where
  | Cu          -- "C-u"
  | minus       -- "-"
  | Cminus      -- "C--"
  | escape      -- "Escape"
  deriving DecidableEq, Repr

inductive ArgInput where
  | Chash       -- "C-#" (digit pressed with Ctrl/Meta held)
  | hash        -- "#" (plain digit)
  deriving DecidableEq, Repr

inductive StateTransition where
  | simple (input : SimpleInput)
  | arg (input : ArgInput) (argument : Int)
  deriving DecidableEq, Repr

inductive PrefixArgState where
  | DEFAULT
  | multiplier (k : Int)
  | negativeInput
  | numerical (n : Int)
  deriving DecidableEq, Repr

namespace PrefixArgState

/-- The `prefixArgument` field of each state object: `null` for
`DEFAULT_STATE`, `4 * k` for `multiplierState(k)`, `-1` for
`NEGATIVE_INPUT_STATE` and `n` for `numericalState(n)`. -/
def prefixArgument : PrefixArgState → Option Int
  | DEFAULT => none
  | multiplier k => some (4 * k)
  | negativeInput => some (-1)
  | numerical n => some n

/-- The per-state `onTransition` closures, merged into one function over the
state tag.  `none` mirrors the source's `null` return ("the state shouldn't
change and we shouldn't absorb the input"). -/
def onTransition : PrefixArgState → StateTransition → Option PrefixArgState
  | DEFAULT, .simple .Cu => some (multiplier 1)
  | DEFAULT, .arg .Chash a => some (numerical a)
  | DEFAULT, .simple .Cminus => some negativeInput
  | DEFAULT, .simple .escape => none
  | DEFAULT, .arg .hash _ => none
  | DEFAULT, .simple .minus => none
  | multiplier k, .simple .Cu => some (multiplier (k + 1))
  | multiplier _, .arg _ a => some (numerical a)
  | multiplier _, .simple .minus => some negativeInput
  | multiplier _, .simple .Cminus => some negativeInput
  | multiplier _, .simple .escape => some DEFAULT
  | negativeInput, .simple .Cu => none
  | negativeInput, .simple .minus => none
  | negativeInput, .simple .Cminus => none
  | negativeInput, .arg _ a => some (numerical (-a))
  | negativeInput, .simple .escape => some DEFAULT
  | numerical _, .simple .Cu => none
  | numerical _, .simple .minus => none
  | numerical _, .simple .Cminus => none
  | numerical n, .arg _ a => some (numerical (10 * n + a))
  | numerical _, .simple .escape => some DEFAULT

end PrefixArgState

/-- `PrefixArgStateMachine.onTransition`: a `null` result from the state's
transition closure yields `PASS` and leaves `currentState` untouched; a
non-null result stores the new state (emitting the state-changed signal,
which carries no semantic content modelled here) and yields `BLOCK`. -/
def machineOnTransition (currentState : PrefixArgState) (transition : StateTransition) :
    KeyResponse × PrefixArgState :=
  match currentState.onTransition transition with
  | none => (KeyResponse.PASS, currentState)
  | some newState => (KeyResponse.BLOCK, newState)

/-- Feed a sequence of transitions to the machine, returning the final
`currentState`. -/
def runMachine (transitions : List StateTransition) (start : PrefixArgState) : PrefixArgState :=
  transitions.foldl (fun s t => (machineOnTransition s t).2) start

end Fifi

namespace Fifi

/-! ### Facts about the prefix-argument machine -/

theorem runMachine_cons (t : StateTransition) (ts : List StateTransition) (s : PrefixArgState) :
    runMachine (t :: ts) s = runMachine ts (machineOnTransition s t).2 := rfl

theorem runMachine_replicate_Cu_multiplier (m : Nat) (k : Int) :
    runMachine (List.replicate m (.simple .Cu)) (.multiplier k) = .multiplier (k + m) := by
  induction m generalizing k with
  | zero => simp [runMachine]
  | succ m ih =>
    rw [List.replicate_succ, runMachine_cons]
    show runMachine _ (.multiplier (k + 1)) = _
    rw [ih]
    congr 1
    push_cast
    ring

/-- C1 (counterexample): from `Default`, pressing `C--` then digit `5` then
digit `2` does NOT yield `Numerical(-52)`: `NEGATIVE_INPUT_STATE` maps the
digit 5 to `numericalState(-5)`, and `numericalState(-5)` maps the digit 2 to
`numericalState(10 * (-5) + 2) = numericalState(-48)`. -/
theorem c1_counterexample :
    runMachine [.simple .Cminus, .arg .hash 5, .arg .hash 2] .DEFAULT ≠
      PrefixArgState.numerical (-52) := by
  decide

/-- C1 (amended): for the prefix-argument state machine started in the
`Default` state, feeding `C--` then digit `5` then digit `2` yields the state
`Numerical(-48)`, per the digit-appension rule `Numerical(10*n + d)` applied
to `n = -5`, `d = 2`. -/
theorem c1_cminus_5_2_yields_minus48 :
    runMachine [.simple .Cminus, .arg .hash 5, .arg .hash 2] .DEFAULT =
      PrefixArgState.numerical (-48) := by
  decide

/-- C2 (counterexample): in the `NegativeInput` state the input `C-u` is NOT
consumed: `PrefixArgStateMachine.onTransition` returns `PASS` (the state's
transition closure returns `null`), not `BLOCK` as the claim states. -/
theorem c2_counterexample :
    (machineOnTransition .negativeInput (.simple .Cu)).1 = KeyResponse.PASS ∧
      KeyResponse.PASS ≠ KeyResponse.BLOCK := by
  decide

/-- C2 (amended): in the `NegativeInput` state (and likewise in any
`Numerical(n)` state), the inputs `C-u`, `-` and `C--` are no-ops that are
NOT consumed: `PrefixArgStateMachine.onTransition` returns `PASS` (the
transition closure returns `null`) and the current state is unchanged. -/
theorem c2_negative_and_numerical_ignore_sign_keys (n : Int) :
    machineOnTransition .negativeInput (.simple .Cu) = (KeyResponse.PASS, .negativeInput) ∧
    machineOnTransition .negativeInput (.simple .minus) = (KeyResponse.PASS, .negativeInput) ∧
    machineOnTransition .negativeInput (.simple .Cminus) = (KeyResponse.PASS, .negativeInput) ∧
    machineOnTransition (.numerical n) (.simple .Cu) = (KeyResponse.PASS, .numerical n) ∧
    machineOnTransition (.numerical n) (.simple .minus) = (KeyResponse.PASS, .numerical n) ∧
    machineOnTransition (.numerical n) (.simple .Cminus) = (KeyResponse.PASS, .numerical n) := by
  refine ⟨rfl, rfl, rfl, ?_, ?_, ?_⟩ <;> rfl

/-- C2 (witness): the amended claim evaluated at the `NegativeInput` state
and the input `C-u`. -/
theorem c2_witness :
    machineOnTransition .negativeInput (.simple .Cu) = (KeyResponse.PASS, .negativeInput) :=
  (c2_negative_and_numerical_ignore_sign_keys 0).1

/-- C3: for every `n ≥ 1`, feeding the `C-u` transition `n` times to the
prefix-argument machine starting from the `Default` state yields the state
`Multiplier(n)`, whose externally visible `prefixArgument` equals `4 * n`
(linear in the number of presses, not exponential). -/
theorem c3_repeated_Cu_yields_multiplier (n : Nat) (h : 1 ≤ n) :
    runMachine (List.replicate n (.simple .Cu)) .DEFAULT = .multiplier n ∧
      (PrefixArgState.multiplier n).prefixArgument = some (4 * n) := by
  constructor
  · obtain ⟨m, rfl⟩ : ∃ m, n = m + 1 := ⟨n - 1, (Nat.succ_pred_eq_of_pos h).symm⟩
    rw [List.replicate_succ, runMachine_cons]
    show runMachine _ (.multiplier 1) = _
    rw [runMachine_replicate_Cu_multiplier]
    congr 1
    push_cast
    ring
  · rfl

/-- C3 (witness): two presses of `C-u` from `Default` reach `Multiplier(2)`
with effective prefix argument `8`. -/
theorem c3_witness :
    runMachine (List.replicate 2 (.simple .Cu)) .DEFAULT = .multiplier 2 ∧
      (PrefixArgState.multiplier 2).prefixArgument = some (4 * 2) := by
  have h := c3_repeated_Cu_yields_multiplier 2 (by decide)
  simpa using h

/-! ## LRU cache (`src/lru_cache.ts`)

The JS class owns a `Map` from keys to node objects and a circular doubly
linked list of nodes with a sentinel head.  Node objects are heap values: they
survive being unlinked from the list, and `mapping` may keep pointing at them.
The embedding therefore separates (a) `store`, the append-only collection of
node records ever allocated (each with a unique numeric id standing for the
object's identity), (b) `order`, the ids currently linked in the list, in
order starting from the node adjacent to the sentinel head (most recent
first), and (c) `mapping`, an association list with unique keys mirroring the
JS `Map`. -/

structure DataNodeRec (K V : Type) where
  id : Nat
  key : K
  val : V
  deriving DecidableEq, Repr

/-- JS `Map.get`. -/
def mapGet {K : Type} [DecidableEq K] (m : List (K × Nat)) (k : K) : Option Nat :=
  (m.find? (fun p => decide (p.1 = k))).map Prod.snd

/-- JS `Map.set`: overwrite in place when the key is present, append
otherwise (keys stay unique by construction). -/
def mapSet {K : Type} [DecidableEq K] (m : List (K × Nat)) (k : K) (v : Nat) :
    List (K × Nat) :=
  if m.any (fun p => decide (p.1 = k)) then
    m.map (fun p => if p.1 = k then (k, v) else p)
  else
    m ++ [(k, v)]

/-- JS `Map.delete`. -/
def mapDelete {K : Type} [DecidableEq K] (m : List (K × Nat)) (k : K) : List (K × Nat) :=
  m.filter (fun p => decide (p.1 ≠ k))

structure LruCache (K V : Type) where
  maxCacheSize : Nat
  mapping : List (K × Nat)
  order : List Nat
  store : List (DataNodeRec K V)
  nextId : Nat
  deriving DecidableEq, Repr

namespace LruCache

variable {K V : Type} [DecidableEq K]

/-- The `LruCache` constructor: throws unless `maxCacheSize ≥ 1`. -/
def new (maxCacheSize : Nat) : Except String (LruCache K V) :=
  if maxCacheSize < 1 then
    Except.error "LruCache maxCacheSize must be > 0"
  else
    Except.ok { maxCacheSize, mapping := [], order := [], store := [], nextId := 0 }

/-- Look a node object up by identity. -/
def storeGet (store : List (DataNodeRec K V)) (nid : Nat) : Option (DataNodeRec K V) :=
  store.find? (fun n => n.id == nid)

/-- `moveToHead(node)`: `remove(node)` (unlink wherever it is; a no-op on an
unlinked node) then `insert(headNode, node, headNode.next)` (link at the
front). -/
def moveToHead (order : List Nat) (nid : Nat) : List Nat :=
  nid :: order.erase nid

/-- `get(key)`: a mapping miss returns `undefined` and touches nothing; a hit
moves the node to the head of the recency list and returns `node.data[1]`.
(The inner `storeGet` cannot miss — `mapping` only ever points at allocated
nodes — but the model keeps the lookup total.) -/
def get (self : LruCache K V) (key : K) : Option V × LruCache K V :=
  match mapGet self.mapping key with
  | none => (none, self)
  | some nid =>
    match storeGet self.store nid with
    | none => (none, self)
    | some node =>
      (some node.val, { self with order := moveToHead self.order nid })

/-- `removeLeastRecentlyUsed()`: the node before the sentinel head is the
last id in `order`; when it is the head itself (empty list) nothing happens,
otherwise the node is unlinked and its key deleted from the mapping. -/
def removeLeastRecentlyUsed (self : LruCache K V) : LruCache K V :=
  match self.order.getLast? with
  | none => self
  | some nid =>
    match storeGet self.store nid with
    | none => { self with order := self.order.dropLast }
    | some node =>
      { self with
        order := self.order.dropLast,
        mapping := mapDelete self.mapping node.key }

/-- `set(key, value)`: evict whenever `mapping.size >= maxCacheSize`
(regardless of whether `key` is already present), then allocate a fresh node
`[key, value]`, point the mapping at it and link it at the head.  The
previous node for `key`, if any, stays in the list. -/
def set (self : LruCache K V) (key : K) (value : V) : LruCache K V :=
  let self :=
    if self.mapping.length ≥ self.maxCacheSize then
      self.removeLeastRecentlyUsed
    else
      self
  let node : DataNodeRec K V := ⟨self.nextId, key, value⟩
  { self with
    store := self.store ++ [node],
    mapping := mapSet self.mapping key node.id,
    order := moveToHead self.order node.id,
    nextId := self.nextId + 1 }

end LruCache

/-- An `LruCache` of capacity 2, as built by `new LruCache(2)`. -/
def emptyCache2 : LruCache Nat Nat :=
  { maxCacheSize := 2, mapping := [], order := [], store := [], nextId := 0 }

/-- Capacity 2, operations `set(1,10); set(2,20); set(2,30)`: the third `set`
overwrites the already-present key `2`. -/
def overwriteScenario : LruCache Nat Nat :=
  ((emptyCache2.set 1 10).set 2 20).set 2 30

/-- `overwriteScenario` continued with `set(3,40); set(4,50); set(5,60)`. -/
def overwriteScenarioExtended : LruCache Nat Nat :=
  ((overwriteScenario.set 3 40).set 4 50).set 5 60

/-- C5: `LruCache.set` on an already-present key is claimed to overwrite
without evicting any other entry; in fact `set` evicts the least-recently-used
entry whenever `mapping.size >= maxCacheSize`, present key or not.  On a
capacity-2 cache, after `set(1,10); set(2,20)`, the call `set(2,30)` on the
existing key `2` evicts key `1`: `get(1)` then returns `undefined`, while the
claim requires the cache to still hold `{1 ↦ 10, 2 ↦ 30}`. -/
theorem c5_set_existing_key_evicts :
    (overwriteScenario.get 1).1 = none ∧ (overwriteScenario.get 2).1 = some 30 := by
  decide

/-- C6: the claimed invariant (mapping and recency list in 1:1
correspondence, entry count never above capacity) fails.  After
`set(1,10); set(2,20); set(2,30)` on a capacity-2 cache the list holds two
nodes (both for key `2`) while the mapping holds one entry; continuing with
`set(3,40); set(4,50); set(5,60)` leaves the mapping with three entries on a
capacity-2 cache, because `removeLeastRecentlyUsed` unlinked a stale node for
key `2` and its `mapping.delete` was a no-op. -/
theorem c6_correspondence_and_capacity_broken :
    overwriteScenario.order.length = 2 ∧
    overwriteScenario.mapping.length = 1 ∧
    overwriteScenario.maxCacheSize = 2 ∧
    overwriteScenarioExtended.mapping.length = 3 ∧
    overwriteScenarioExtended.maxCacheSize = 2 := by
  decide

/-- C10: for every key not present in the mapping, `LruCache.get` returns
`undefined` and leaves the cache completely unchanged — no recency
reordering, no eviction, the mapping and list identical to before the
call. -/
theorem c10_get_miss_is_pure {K V : Type} [DecidableEq K]
    (self : LruCache K V) (key : K) (h : mapGet self.mapping key = none) :
    self.get key = (none, self) := by
  unfold LruCache.get
  rw [h]

/-- C10 (witness): on the capacity-2 cache holding keys 1 and 2 (after
`set(1,10); set(2,20)`), key 7 is absent and `get(7)` returns `undefined`
with the cache unchanged. -/
theorem c10_witness :
    ((emptyCache2.set 1 10).set 2 20).get 7 = (none, (emptyCache2.set 1 10).set 2 20) :=
  c10_get_miss_is_pure ((emptyCache2.set 1 10).set 2 20) 7 (by decide)

/-! ## Key dispatcher (`src/keyboard/dispatcher.ts`)

A `KeyEventHandler` exposes `onKeyDown(input): Promise<KeyResponse>`; the
promises are resolved sequentially (each awaited before the next handler
runs), so a handler is modelled as a pure function `I → KeyResponse`.
`sequentialRun` instruments the `for` loop of `sequential(handlers)` with the
number of handlers whose `onKeyDown` was invoked: the loop calls handlers
from the front of the list, so the invoked handlers are exactly the first
`(sequentialRun handlers input).2` entries, in list order. -/

def sequentialRun {I : Type} (handlers : List (I → KeyResponse)) (input : I) :
    KeyResponse × Nat :=
  match handlers with
  | [] => (KeyResponse.PASS, 0)
  | handler :: rest =>
    match handler input with
    | KeyResponse.BLOCK => (KeyResponse.BLOCK, 1)
    | KeyResponse.PASS =>
      let r := sequentialRun rest input
      (r.1, r.2 + 1)

/-- The response of `sequential(handlers).onKeyDown(input)` alone. -/
def sequentialOnKeyDown {I : Type} (handlers : List (I → KeyResponse)) (input : I) :
    KeyResponse :=
  (sequentialRun handlers input).1

theorem sequentialRun_all_pass {I : Type} (handlers : List (I → KeyResponse)) (input : I)
    (h : ∀ handler ∈ handlers, handler input = KeyResponse.PASS) :
    sequentialRun handlers input = (KeyResponse.PASS, handlers.length) := by
  induction handlers with
  | nil => rfl
  | cons handler rest ih =>
    have hh : handler input = KeyResponse.PASS := h handler (by simp)
    simp only [sequentialRun, hh, ih (fun g hg => h g (by simp [hg])), List.length_cons]

theorem sequentialRun_first_block {I : Type} (handlers : List (I → KeyResponse)) (input : I)
    (k : Nat) (hk : k < handlers.length)
    (hpass : ∀ j (hj : j < handlers.length), j < k →
      handlers.get ⟨j, hj⟩ input = KeyResponse.PASS)
    (hblock : handlers.get ⟨k, hk⟩ input = KeyResponse.BLOCK) :
    sequentialRun handlers input = (KeyResponse.BLOCK, k + 1) := by
  induction handlers generalizing k with
  | nil => simp at hk
  | cons handler rest ih =>
    cases k with
    | zero =>
      have : handler input = KeyResponse.BLOCK := hblock
      simp only [sequentialRun, this]
    | succ k =>
      have hh : handler input = KeyResponse.PASS :=
        hpass 0 (by simp) (Nat.succ_pos k)
      have hk' : k < rest.length := Nat.lt_of_succ_lt_succ hk
      have := ih k hk'
        (fun j hj hjk => hpass (j + 1) (by simpa using Nat.succ_lt_succ hj)
          (Nat.succ_lt_succ hjk))
        hblock
      simp only [sequentialRun, hh, this]

/-- C7: `sequential(handlers).onKeyDown(input)` invokes the handlers'
`onKeyDown` in list order; if every handler returns `PASS` then all
`handlers.length` of them are invoked and the overall result is `PASS`,
while if handler `k` is the first to return `BLOCK` (all earlier ones
returning `PASS`) then exactly the first `k + 1` handlers are invoked — the
handlers after position `k` are never invoked — and the overall result is
that handler's `BLOCK`. -/
theorem c7_sequential_first_block_wins {I : Type} (handlers : List (I → KeyResponse))
    (input : I) :
    ((∀ handler ∈ handlers, handler input = KeyResponse.PASS) →
      sequentialRun handlers input = (KeyResponse.PASS, handlers.length)) ∧
    (∀ k (hk : k < handlers.length),
      (∀ j (hj : j < handlers.length), j < k →
        handlers.get ⟨j, hj⟩ input = KeyResponse.PASS) →
      handlers.get ⟨k, hk⟩ input = KeyResponse.BLOCK →
      sequentialRun handlers input = (KeyResponse.BLOCK, k + 1)) :=
  ⟨sequentialRun_all_pass handlers input,
   fun k hk hpass hblock => sequentialRun_first_block handlers input k hk hpass hblock⟩

/-- C7 (witness): for `[h1, h2]` with `h1` returning `PASS` and `h2`
returning `BLOCK`, the overall result is `BLOCK` with both handlers invoked
(`h1` before `h2`); for `[h2, h1]` the blocker comes first, only one handler
is invoked, and `h1` is never consulted. -/
theorem c7_witness :
    sequentialRun [fun _ => KeyResponse.PASS, fun _ => KeyResponse.BLOCK] (0 : Nat) =
      (KeyResponse.BLOCK, 2) ∧
    sequentialRun [fun _ => KeyResponse.BLOCK, fun _ => KeyResponse.PASS] (0 : Nat) =
      (KeyResponse.BLOCK, 1) := by
  constructor
  · refine (c7_sequential_first_block_wins
      [fun _ => KeyResponse.PASS, fun _ => KeyResponse.BLOCK] 0).2 1 (by decide) ?_ rfl
    intro j hj hjk
    interval_cases j
    · rfl
  · refine (c7_sequential_first_block_wins
      [fun _ => KeyResponse.BLOCK, fun _ => KeyResponse.PASS] 0).2 0 (by decide) ?_ rfl
    intro j hj hjk
    omega

/-! ## Button modifiers (`src/button_grid/modifier_delegate.ts`)

The composite delegate folds its children's modifier snapshots through
`appendModifiers` starting from `defaultModifiers()`; the source comments
that `ButtonModifiers` acts as a monoid with `defaultModifiers()` as the
identity. -/

structure ButtonModifiers where
  prefixArgument : Option Int
  keepModifier : Bool
  hyperbolicModifier : Bool
  inverseModifier : Bool
  deriving DecidableEq, Repr

def defaultModifiers : ButtonModifiers :=
  { prefixArgument := none,
    keepModifier := false,
    hyperbolicModifier := false,
    inverseModifier := false }

/-- `appendModifiers`: boolean modifiers combine with `||`; `prefixArgument`
combines with `??` (the 'First' monoid — the left value wins unless it is
nullish). -/
def appendModifiers (left right : ButtonModifiers) : ButtonModifiers :=
  { prefixArgument :=
      match left.prefixArgument with
      | some v => some v
      | none => right.prefixArgument,
    keepModifier := left.keepModifier || right.keepModifier,
    hyperbolicModifier := left.hyperbolicModifier || right.hyperbolicModifier,
    inverseModifier := left.inverseModifier || right.inverseModifier }

/-- C8: `ButtonModifiers` with `appendModifiers` forms a monoid with identity
`defaultModifiers()`: combining with the identity on either side is the
identity map, the operation is associative, each boolean flag of a
combination is the OR of the operands' flags, and the combined
`prefixArgument` is the first non-nullish operand's value (the left operand
wins when both are set). -/
theorem c8_button_modifiers_monoid (x y z : ButtonModifiers) :
    appendModifiers x defaultModifiers = x ∧
    appendModifiers defaultModifiers x = x ∧
    appendModifiers (appendModifiers x y) z = appendModifiers x (appendModifiers y z) ∧
    (appendModifiers x y).keepModifier = (x.keepModifier || y.keepModifier) ∧
    (appendModifiers x y).hyperbolicModifier
      = (x.hyperbolicModifier || y.hyperbolicModifier) ∧
    (appendModifiers x y).inverseModifier = (x.inverseModifier || y.inverseModifier) ∧
    (∀ a : Int, x.prefixArgument = some a → (appendModifiers x y).prefixArgument = some a) ∧
    (x.prefixArgument = none → (appendModifiers x y).prefixArgument = y.prefixArgument) := by
  obtain ⟨xp, xk, xh, xi⟩ := x
  obtain ⟨yp, yk, yh, yi⟩ := y
  obtain ⟨zp, zk, zh, zi⟩ := z
  refine ⟨?_, ?_, ?_, rfl, rfl, rfl, ?_, ?_⟩ <;>
    cases xp <;> cases yp <;>
      simp [appendModifiers, defaultModifiers, Bool.or_assoc]

/-- C8 (witness): `{keepModifier := true}` combined with the identity on
either side is itself, and combining two modifier sets whose
`prefixArgument`s are `some 3` and `some 7` keeps the left operand's `3`. -/
theorem c8_witness :
    appendModifiers ⟨none, true, false, false⟩ defaultModifiers
        = ⟨none, true, false, false⟩ ∧
    appendModifiers defaultModifiers ⟨none, true, false, false⟩
        = ⟨none, true, false, false⟩ ∧
    (appendModifiers ⟨some 3, false, false, false⟩ ⟨some 7, true, false, false⟩).prefixArgument
        = some 3 := by
  refine ⟨(c8_button_modifiers_monoid ⟨none, true, false, false⟩ defaultModifiers
      defaultModifiers).1,
    (c8_button_modifiers_monoid ⟨none, true, false, false⟩ defaultModifiers
      defaultModifiers).2.1, ?_⟩
  exact (c8_button_modifiers_monoid ⟨some 3, false, false, false⟩
    ⟨some 7, true, false, false⟩ defaultModifiers).2.2.2.2.2.2.1 3 rfl

/-! ## Subcommand button manager (`src/button_grid/subcommand.ts`)

`SubcommandButtonManager.onClick(cell)` performs, in order:
`this.setCurrentManager(this.parent)` (delegated up to the real grid
manager), then a branch on `cell.asSubcommand(this)` — `"pass"` fires the
cell normally via `this.parent.onClick(cell)`, `"invalid"` shows the error
`"Invalid subcommand"` via `TAURI.showError`, and an `IsSubcommand` value
invokes the caller-supplied callback with the cell's subcommand id — and
finally (in a `finally` block) `this.resetState()`.  The effects are modelled
as an event trace; `cell.asSubcommand` is a pure query modelled by the cell's
`SubcommandBehavior`. -/

structure CommandOptions where
  argument : Option Int
  keepModifier : Bool
  hyperbolicModifier : Bool
  inverseModifier : Bool
  deriving DecidableEq, Repr

structure SubcommandId where
  name : String
  options : CommandOptions
  deriving DecidableEq, Repr

inductive SubcommandBehavior where
  | isSubcommand (subcommand : SubcommandId)
  | pass
  | invalid
  deriving DecidableEq, Repr

/-- The two managers in play during subcommand entry: the parent
`AbstractButtonManager` and the transient `SubcommandButtonManager`. -/
inductive ManagerId where
  | parent
  | subcommandManager
  deriving DecidableEq, Repr

inductive ClickEvent where
  | setCurrentManager (m : ManagerId)
  | parentOnClick                        -- `this.parent.onClick(cell)`: the cell fires normally
  | showError (message : String)         -- `TAURI.showError(message)`
  | callbackInvoked (id : SubcommandId)  -- `this.callback(subcommand.subcommand)`
  | resetState                           -- `this.resetState()` in the `finally` block
  deriving DecidableEq, Repr

/-- The event trace of `SubcommandButtonManager.onClick(cell)` for a cell
whose `asSubcommand` query yields `behavior`. -/
def subOnClick (behavior : SubcommandBehavior) : List ClickEvent :=
  [ClickEvent.setCurrentManager ManagerId.parent] ++
  (match behavior with
   | .pass => [ClickEvent.parentOnClick]
   | .invalid => [ClickEvent.showError "Invalid subcommand"]
   | .isSubcommand subcommand => [ClickEvent.callbackInvoked subcommand]) ++
  [ClickEvent.resetState]

/-- The "current manager" after a trace of events, starting from `start`:
each `setCurrentManager` event replaces it. -/
def currentManagerAfter (events : List ClickEvent) (start : ManagerId) : ManagerId :=
  events.foldl
    (fun cur e =>
      match e with
      | ClickEvent.setCurrentManager m => m
      | _ => cur)
    start

/-- C9: for every cell clicked while the `SubcommandButtonManager` is
installed, exactly one of three outcomes occurs, according to the cell's
`asSubcommand()` behavior — `"pass"` fires the cell normally through the
parent manager, `"invalid"` surfaces the `"Invalid subcommand"` error without
invoking the callback, and an `IsSubcommand` value invokes the caller's
callback with that cell's subcommand id — and in all three cases the current
manager ends up restored to the parent manager. -/
theorem c9_subcommand_click_outcomes (behavior : SubcommandBehavior) :
    currentManagerAfter (subOnClick behavior) ManagerId.subcommandManager
        = ManagerId.parent ∧
    ((ClickEvent.parentOnClick ∈ subOnClick behavior) ↔ behavior = .pass) ∧
    (∀ message : String,
      (ClickEvent.showError message ∈ subOnClick behavior) ↔
        (behavior = .invalid ∧ message = "Invalid subcommand")) ∧
    (∀ id : SubcommandId,
      (ClickEvent.callbackInvoked id ∈ subOnClick behavior) ↔
        behavior = .isSubcommand id) ∧
    (subOnClick behavior).getLast? = some ClickEvent.resetState := by
  cases behavior with
  | pass => simp [subOnClick, currentManagerAfter, List.getLast?]
  | invalid => simp [subOnClick, currentManagerAfter, List.getLast?]
  | isSubcommand subcommand =>
    simp [subOnClick, currentManagerAfter, List.getLast?]
    exact fun id => eq_comm

/-- C9 (witness): for a `"pass"` cell the parent fires and the current
manager is restored to the parent manager. -/
theorem c9_witness :
    currentManagerAfter (subOnClick .pass) ManagerId.subcommandManager = ManagerId.parent ∧
    ClickEvent.parentOnClick ∈ subOnClick .pass :=
  ⟨(c9_subcommand_click_outcomes .pass).1,
   ((c9_subcommand_click_outcomes .pass).2.1).mpr rfl⟩

/-! ## Key model (`src/keyboard.ts`)

`KeyInput` holds a key name and a modifier bitmask (`CTRL = 1`, `META = 2`,
`SUPER = 4`).  The constructor normalizes: a letter key is lowercased when
any modifier is held (`key in LETTERS` tests the single-character uppercase
key names), and the Emacs-compatibility rewrites `C-i → Tab`, `C-m → Enter`
apply afterwards.  Strings are `List Char`; `fromEmacsSyntax` throws on a
malformed modifier prefix, modelled by `Option`. -/

namespace Modifier

def NONE : Nat := 0

def CTRL : Nat := 1

def META : Nat := 2

def SUPER : Nat := 4

end Modifier

/-- The keys of the `LETTERS` object: the single-character uppercase key
names. -/
def LETTERS : List Char :=
  ['A', 'B', 'C', 'D', 'E', 'F', 'G', 'H', 'I', 'J', 'K', 'L', 'M',
   'N', 'O', 'P', 'Q', 'R', 'S', 'T', 'U', 'V', 'W', 'X', 'Y', 'Z']

/-- `this.key in LETTERS`: the key is one of the single-character uppercase
letter names. -/
def isLetterKey : List Char → Bool
  | [c] => LETTERS.contains c
  | _ => false

/-- `this.key.toLowerCase()` for the keys `isLetterKey` accepts. -/
def toLowerKey : List Char → List Char
  | [c] => [c.toLower]
  | key => key

structure KeyInput where
  key : List Char
  modifiers : Nat
  deriving DecidableEq, Repr

namespace KeyInput

/-- `hasModifier(modifier)`: `(this.modifiers & modifier) == modifier`. -/
def hasModifier (self : KeyInput) (modifier : Nat) : Bool :=
  self.modifiers &&& modifier == modifier

/-- `toEmacsSyntax()`: modifier prefixes in the fixed order `C-`, `M-`, `s-`
followed by the key name. -/
def toEmacsSyntax (self : KeyInput) : List Char :=
  (((if self.hasModifier Modifier.CTRL then ['C', '-'] else []) ++
    (if self.hasModifier Modifier.META then ['M', '-'] else [])) ++
   (if self.hasModifier Modifier.SUPER then ['s', '-'] else [])) ++
  self.key

end KeyInput

/-- The `KeyInput` constructor: store the fields, then `normalizeSelf()` —
lowercase a letter key held with any modifier, then rewrite the results
`C-i`/`C-m` to the unmodified `Tab`/`Enter`. -/
def mkKeyInput (key : List Char) (modifiers : Nat) : KeyInput :=
  let key := if (modifiers != Modifier.NONE) && isLetterKey key then toLowerKey key else key
  let self : KeyInput := ⟨key, modifiers⟩
  if self.toEmacsSyntax = ['C', '-', 'i'] then ⟨['T', 'a', 'b'], Modifier.NONE⟩
  else if self.toEmacsSyntax = ['C', '-', 'm'] then ⟨['E', 'n', 't', 'e', 'r'], Modifier.NONE⟩
  else self

/-- The `while (input[1] == '-')` loop of `fromEmacsSyntax`: consume modifier
prefixes, accumulating the bitmask; an unrecognized modifier character throws
(`none`). -/
def fromEmacsSyntaxLoop (input : List Char) (modifiers : Nat) : Option (Nat × List Char) :=
  match input with
  | c :: d :: rest =>
    if d = '-' then
      if c = 'C' then fromEmacsSyntaxLoop rest (modifiers ||| Modifier.CTRL)
      else if c = 'M' then fromEmacsSyntaxLoop rest (modifiers ||| Modifier.META)
      else if c = 's' then fromEmacsSyntaxLoop rest (modifiers ||| Modifier.SUPER)
      else none
    else some (modifiers, input)
  | _ => some (modifiers, input)

/-- `KeyInput.fromEmacsSyntax`: parse the modifier prefixes, then construct
(and thereby normalize) a `KeyInput` from what remains. -/
def KeyInput.fromEmacsSyntax (input : List Char) : Option KeyInput :=
  (fromEmacsSyntaxLoop input 0).map (fun r => mkKeyInput r.2 r.1)

/-! ### The canonical key string grammar (spec §6)

Optional prefixes in the fixed order `C-`, `M-`, `s-`, then a base key name.
A base key name is a non-empty string whose second character is not `-` (so
the prefix-consuming parse loop stops exactly at the base key). -/

def isValidBaseKey : List Char → Bool
  | [] => false
  | [_] => true
  | _ :: d :: _ => d ≠ '-'

/-- The canonical string with the given optional prefixes and base key. -/
def canonicalKeyString (c m sup : Bool) (base : List Char) : List Char :=
  (if c then ['C', '-'] else []) ++
  ((if m then ['M', '-'] else []) ++
   ((if sup then ['s', '-'] else []) ++ base))

/-- The modifier bitmask named by a set of prefixes. -/
def modsOf (c m sup : Bool) : Nat :=
  (if c then Modifier.CTRL else 0) |||
  (if m then Modifier.META else 0) |||
  (if sup then Modifier.SUPER else 0)

/-- On a valid base key the parse loop stops immediately: either the string
is too short to have a second character, or its second character is not
`-`. -/
theorem fromEmacsSyntaxLoop_base (base : List Char) (modifiers : Nat)
    (hbase : isValidBaseKey base = true) :
    fromEmacsSyntaxLoop base modifiers = some (modifiers, base) := by
  match base with
  | [] => simp [isValidBaseKey] at hbase
  | [c] => rfl
  | c :: d :: rest =>
    have hd : ¬(d = '-') := by simpa [isValidBaseKey] using hbase
    simp [fromEmacsSyntaxLoop, hd]

/-- Parsing a canonical string consumes exactly the listed prefixes and
leaves the base key. -/
theorem fromEmacsSyntaxLoop_canonical (c m sup : Bool) (base : List Char)
    (hbase : isValidBaseKey base = true) :
    fromEmacsSyntaxLoop (canonicalKeyString c m sup base) 0
      = some (modsOf c m sup, base) := by
  cases c <;> cases m <;> cases sup <;>
    exact fromEmacsSyntaxLoop_base base _ hbase

/-- `toEmacsSyntax` rebuilds exactly the canonical string of the
modifier bitmask's prefixes. -/
theorem toEmacsSyntax_modsOf (c m sup : Bool) (base : List Char) :
    KeyInput.toEmacsSyntax ⟨base, modsOf c m sup⟩ = canonicalKeyString c m sup base := by
  cases c <;> cases m <;> cases sup <;>
    simp [KeyInput.toEmacsSyntax, KeyInput.hasModifier, modsOf, canonicalKeyString,
      Modifier.CTRL, Modifier.META, Modifier.SUPER,
      (by decide : (6 &&& 2 : Nat) = 2), (by decide : (6 &&& 4 : Nat) = 4),
      (by decide : (5 &&& 4 : Nat) = 4), (by decide : (3 &&& 2 : Nat) = 2),
      (by decide : (7 &&& 2 : Nat) = 2), (by decide : (7 &&& 4 : Nat) = 4)]

/-- Normalization in the `KeyInput` constructor fixes inputs whose base key
is not a modified uppercase letter and whose syntax is neither `C-i` nor
`C-m`. -/
theorem mkKeyInput_fixed (c m sup : Bool) (base : List Char)
    (hletter : (c || m || sup) = true → isLetterKey base = false)
    (hi : canonicalKeyString c m sup base ≠ ['C', '-', 'i'])
    (hm : canonicalKeyString c m sup base ≠ ['C', '-', 'm']) :
    mkKeyInput base (modsOf c m sup) = ⟨base, modsOf c m sup⟩ := by
  have hcond : ((modsOf c m sup != Modifier.NONE) && isLetterKey base) = false := by
    cases c <;> cases m <;> cases sup
    · simp [modsOf, Modifier.NONE]
    all_goals
      simp [modsOf, Modifier.NONE, Modifier.CTRL, Modifier.META, Modifier.SUPER, hletter rfl]
  simp only [mkKeyInput, hcond, Bool.false_eq_true, if_false, toEmacsSyntax_modsOf, hi, hm,
    if_neg]

/-- C4 (counterexample): the canonical string `C-A` (prefix `C-`, base key
`A`) matches the grammar of §6 but does not round-trip: construction
normalizes the uppercase letter held with a modifier to lowercase, so
`KeyInput.fromEmacsSyntax "C-A"` serializes back as `"C-a" ≠ "C-A"`. -/
theorem c4_counterexample :
    isValidBaseKey ['A'] = true ∧
    canonicalKeyString true false false ['A'] = ['C', '-', 'A'] ∧
    (KeyInput.fromEmacsSyntax ['C', '-', 'A']).map KeyInput.toEmacsSyntax
      = some ['C', '-', 'a'] ∧
    (['C', '-', 'a'] : List Char) ≠ ['C', '-', 'A'] := by
  decide

/-- C4 (amended): for every canonical key string of §6 (optional prefixes in
order `C-`, `M-`, `s-`, then a base key name) that is fixed by `KeyInput`'s
construction-time normalization — the base key is not a single uppercase
letter when any modifier prefix is present, and the string is neither `C-i`
nor `C-m` — `KeyInput.fromEmacsSyntax(s).toEmacsSyntax()` returns exactly
`s`. -/
theorem c4_roundtrip_normalized (c m sup : Bool) (base : List Char)
    (hbase : isValidBaseKey base = true)
    (hletter : (c || m || sup) = true → isLetterKey base = false)
    (hi : canonicalKeyString c m sup base ≠ ['C', '-', 'i'])
    (hm : canonicalKeyString c m sup base ≠ ['C', '-', 'm']) :
    (KeyInput.fromEmacsSyntax (canonicalKeyString c m sup base)).map KeyInput.toEmacsSyntax
      = some (canonicalKeyString c m sup base) := by
  rw [KeyInput.fromEmacsSyntax, fromEmacsSyntaxLoop_canonical c m sup base hbase]
  simp only [Option.map_some']
  rw [mkKeyInput_fixed c m sup base hletter hi hm, toEmacsSyntax_modsOf]

/-- C4 (witness): the canonical string `C-M-x` round-trips. -/
theorem c4_witness :
    (KeyInput.fromEmacsSyntax (canonicalKeyString true true false ['x'])).map
        KeyInput.toEmacsSyntax
      = some (canonicalKeyString true true false ['x']) :=
  c4_roundtrip_normalized true true false ['x'] (by decide) (fun _ => by decide)
    (by decide) (by decide)

end Fifi
